import Mathlib

/-!
Shallow embedding of the panel-regression and diagnostics pipeline of the
thesis-models repository.  Numerical values are modelled as exact rationals
(`ℚ`); a missing value (pandas `NaN`) is `Option.none`; float infinities are a
dedicated constructor of `FVal` where division semantics matter.  External
numerical routines (matrix inversion, chi-square and normal CDFs, square
roots, model fitting) are abstracted as function parameters, and a fit that
may raise an exception is a function into `Except String _` whose error value
is the exception's type name.
-/

namespace ThesisModels

/-! ### Shared list and vector helpers -/

/-- Dot product of two rational vectors (`zipWith` truncates at the shorter). -/
def dot (v w : List ℚ) : ℚ := (List.zipWith (· * ·) v w).sum

/-- Matrix-vector product, the matrix given as a list of rows. -/
def matVec (M : List (List ℚ)) (v : List ℚ) : List ℚ := M.map (fun r => dot r v)

/-- Transpose of a rectangular list-of-rows matrix. -/
def transposeL {α : Type} : List (List α) → List (List α)
  | [] => []
  | r :: rs =>
    let t := transposeL rs
    if t.isEmpty then r.map (fun a => [a])
    else List.zipWith (· :: ·) r t

/-- Matrix-matrix product (rows of `A` dotted with columns of `B`). -/
def matMul (A B : List (List ℚ)) : List (List ℚ) :=
  A.map (fun r => (transposeL B).map (fun c => dot r c))

/-- Arithmetic mean of a list of rationals (`0` on the empty list, as `ℚ`
division by zero is `0`; callers guard emptiness where the source does). -/
def listMean (l : List ℚ) : ℚ := l.sum / (l.length : ℚ)

namespace Panel

/-- `groupby(level=0)[col].shift(L)` applied to one entity's column, in group
sort order: the first `min L len` entries become missing and the remaining
entries are the original values shifted down by `L` positions. -/
def shift {α : Type} (L : ℕ) (xs : List (Option α)) : List (Option α) :=
  List.replicate (min L xs.length) (none : Option α) ++ xs.take (xs.length - L)

/-- The lag builder applied to one entity's (time, value) records: times are
carried through unchanged and values are shifted by row position. -/
def shiftColumn {α : Type} (L : ℕ) (rows : List (ℤ × Option α)) :
    List (ℤ × Option α) :=
  (rows.map Prod.fst).zip (shift L (rows.map Prod.snd))

end Panel

/-! ### `hausman_appendix_A1.py` -/

namespace Hausman

/-- The slice of a `linearmodels` fit result used by `hausman_stat`:
coefficients and coefficient covariance, keyed by regressor name. -/
structure FitResult (α : Type) where
  params : α → ℚ
  cov : α → α → ℚ

/-- The tuple returned by `hausman_stat`. -/
structure HOut where
  stat : ℚ
  df : ℕ
  pval : ℚ
deriving DecidableEq

/-- `b_fe - b_re` restricted to `keep_idx`, in `keep_idx` order. -/
def subVec {α : Type} (f g : α → ℚ) (keep : List α) : List ℚ :=
  keep.map (fun k => f k - g k)

/-- `V_fe - V_re` restricted to `keep_idx × keep_idx`. -/
def subMat {α : Type} (f g : α → α → ℚ) (keep : List α) : List (List ℚ) :=
  keep.map (fun i => keep.map (fun j => f i j - g i j))

/-- `hausman_stat(fe_res, re_res, keep_idx)`.  `inv` abstracts
`np.linalg.inv` with its `np.linalg.pinv` fallback on `LinAlgError`;
`chi2cdf s df` abstracts `scipy.stats.chi2.cdf(s, df)`. -/
def hausman_stat {α : Type} (inv : List (List ℚ) → List (List ℚ))
    (chi2cdf : ℚ → ℕ → ℚ) (fe re : FitResult α) (keep : List α) : HOut :=
  let d := subVec fe.params re.params keep
  let V := subMat fe.cov re.cov keep
  let stat := dot d (matVec (inv V) d)
  let df := keep.length
  ⟨stat, df, 1 - chi2cdf stat df⟩

/-- The regressor columns `["ESG_lag", Employees, Debt]` of `build_design`. -/
inductive XCol
  | esgLag
  | emp
  | debt
deriving DecidableEq

/-- One firm-year record of the panel handed to `run_block` (the columns the
script uses; identifiers are positional: the panel is grouped by firm and
sorted by year inside each group, as `main` arranges). -/
structure PanelRow where
  roa : Option ℚ
  niat : Option ℚ
  esg : Option ℚ
  emp : Option ℚ
  debt : Option ℚ
deriving DecidableEq

/-- A row of the design matrix kept by `build_design`'s NaN mask: entity
index, outcome value and the three regressor values. -/
structure KRow where
  ent : ℕ
  y : ℚ
  esgLag : ℚ
  emp : ℚ
  debt : ℚ
deriving DecidableEq

/-- Value of a kept design row at a regressor column. -/
def KRow.at (r : KRow) : XCol → ℚ
  | XCol.esgLag => r.esgLag
  | XCol.emp => r.emp
  | XCol.debt => r.debt

/-- The pair `(y, X)` returned by `build_design`: the regressor columns that
survive the constant-column drop, and the kept rows (each row's value list is
aligned with `cols`). -/
structure Design where
  cols : List XCol
  rows : List (ℕ × ℚ × List ℚ)
deriving DecidableEq

/-- `std(ddof=0)` is (exactly) zero: all entries equal.  On an empty column
pandas yields `NaN` and `np.isclose(NaN, 0)` is false, hence `false` here. -/
def isConst (l : List ℚ) : Bool :=
  match l with
  | [] => false
  | a :: t => t.all (fun b => b == a)

/-- The usable rows of `build_design`: lag the ESG column within each entity
group, then keep rows where the outcome and all three regressors are present.
`useNiat` selects the outcome column (`false` = ROA, `true` = NIAT). -/
def keptRows (panel : List (List PanelRow)) (useNiat : Bool) (lag : ℕ) :
    List KRow :=
  (panel.enum).flatMap (fun g =>
    ((Panel.shift lag (g.2.map (·.esg))).zip g.2).filterMap (fun p =>
      let yv := if useNiat then p.2.niat else p.2.roa
      match yv, p.1, p.2.emp, p.2.debt with
      | some y, some e, some m, some d => some ⟨g.1, y, e, m, d⟩
      | _, _, _, _ => none))

/-- `build_design(df_idx, y_col, ..., lag)`: usable rows, then drop constant
regressor columns. -/
def build_design (panel : List (List PanelRow)) (useNiat : Bool) (lag : ℕ) :
    Design :=
  let kept := keptRows panel useNiat lag
  let cols := [XCol.esgLag, XCol.emp, XCol.debt].filter
    (fun c => !isConst (kept.map (fun r => r.at c)))
  ⟨cols, kept.map (fun r => (r.ent, r.y, cols.map r.at))⟩

/-- Python's banker's rounding of a rational to the nearest integer. -/
def roundHalfEven (x : ℚ) : ℤ :=
  let f := ⌊x⌋
  let r := x - (f : ℚ)
  if r < 1/2 then f
  else if 1/2 < r then f + 1
  else if f % 2 = 0 then f else f + 1

/-- `round(x, 4)`. -/
def round4 (x : ℚ) : ℚ := ((roundHalfEven (x * 10000) : ℤ) : ℚ) / 10000

/-- One output row of `run_block`. -/
structure HRow where
  sample : String
  outcome : String
  lag : ℕ
  chi2 : Option ℚ
  df : ℕ
  p : Option ℚ
  decision : String
deriving DecidableEq

/-- The body of `run_block`'s loop for one (outcome, lag) combination.
`fitFE`/`fitRE` abstract the `PanelOLS`/`RandomEffects` fits on `(y, X)`;
`pfmt` abstracts the 6-significant-digit float formatting of the stored
p-value (the decision uses the unformatted p-value, as in the source). -/
def run_cell (inv : List (List ℚ) → List (List ℚ)) (chi2cdf : ℚ → ℕ → ℚ)
    (pfmt : ℚ → ℚ) (fitFE fitRE : Design → FitResult XCol)
    (panel : List (List PanelRow)) (label outName : String) (useNiat : Bool)
    (lag : ℕ) : HRow :=
  let D := build_design panel useNiat lag
  if D.rows.length = 0 ∨ D.cols.length = 0 then
    ⟨label, outName, lag, none, 0, none, "NA"⟩
  else
    let h := hausman_stat inv chi2cdf (fitFE D) (fitRE D) D.cols
    ⟨label, outName, lag, some (round4 h.stat), h.df, some (pfmt h.pval),
      if h.pval < (0.05 : ℚ) then "FE" else "RE"⟩

/-- `run_block(panel, labels, sample_label)`: outcomes ROA, NIAT with lags
0..3 each. -/
def run_block (inv : List (List ℚ) → List (List ℚ)) (chi2cdf : ℚ → ℕ → ℚ)
    (pfmt : ℚ → ℚ) (fitFE fitRE : Design → FitResult XCol)
    (panel : List (List PanelRow)) (label : String) : List HRow :=
  ([("ROA", false), ("NIAT", true)] : List (String × Bool)).flatMap
    (fun oc => (List.range 4).map
      (fun lag => run_cell inv chi2cdf pfmt fitFE fitRE panel label oc.1 oc.2 lag))

end Hausman

/-! ### `model_a_panel_fe.py` / `model_b_panel_fe.py` -/

namespace ModelA

/-- Float-like value for the `Debt / Assets` computation: finite rational,
positive/negative infinity, or `NaN`. -/
inductive FVal
  | nan
  | pinf
  | ninf
  | fin (q : ℚ)
deriving DecidableEq

/-- IEEE-style division as numpy/pandas performs it on `Debt / Assets`:
a nonzero finite value divided by zero gives a signed infinity, `0/0` and any
`NaN` operand give `NaN`, infinities over finite values keep their sign. -/
def fdiv : FVal → FVal → FVal
  | FVal.nan, _ => FVal.nan
  | _, FVal.nan => FVal.nan
  | FVal.fin a, FVal.fin b =>
      if b ≠ 0 then FVal.fin (a / b)
      else if 0 < a then FVal.pinf
      else if a < 0 then FVal.ninf
      else FVal.nan
  | FVal.fin _, FVal.pinf => FVal.fin 0
  | FVal.fin _, FVal.ninf => FVal.fin 0
  | FVal.pinf, FVal.fin b => if 0 ≤ b then FVal.pinf else FVal.ninf
  | FVal.ninf, FVal.fin b => if 0 ≤ b then FVal.ninf else FVal.pinf
  | FVal.pinf, FVal.pinf => FVal.nan
  | FVal.pinf, FVal.ninf => FVal.nan
  | FVal.ninf, FVal.pinf => FVal.nan
  | FVal.ninf, FVal.ninf => FVal.nan

/-- `df.replace([np.inf, -np.inf], np.nan)` on one value. -/
def replaceInf : FVal → FVal
  | FVal.pinf => FVal.nan
  | FVal.ninf => FVal.nan
  | v => v

/-- `build_debt_ratio`: `Debt / Assets` with both infinities replaced by
`NaN` (models A and B share this definition verbatim). -/
def build_debt_ratio (debt assets : FVal) : FVal := replaceInf (fdiv debt assets)

/-- Finite projection: the values that survive a later `dropna`. -/
def FVal.toFin : FVal → Option ℚ
  | FVal.fin q => some q
  | _ => none

/-- One firm-year record of model A's prepared frame (model B carries three
pillar scores instead of one ESG score; the C4/C5 logic is identical). -/
structure MRow where
  roa : Option ℚ
  niat : Option ℚ
  esg : Option ℚ
  emp : Option ℚ
  dr : Option ℚ
deriving DecidableEq

/-- A row of `fit_one`'s post-`dropna` data: entity index, outcome and the
three regressors. -/
structure DRow where
  ent : ℕ
  y : ℚ
  esg : ℚ
  emp : ℚ
  dr : ℚ
deriving DecidableEq

/-- `fit_one`'s design rows before the singleton drop: lag ESG within each
entity group (only when `lag` is nonzero, as the source tests `if lag:`),
then `dropna` across the outcome and all regressors. -/
def dataOf (block : List (List MRow)) (useNiat : Bool) (lag : ℕ) : List DRow :=
  (block.enum).flatMap (fun g =>
    let esgL := if lag = 0 then g.2.map (·.esg)
                else Panel.shift lag (g.2.map (·.esg))
    (esgL.zip g.2).filterMap (fun p =>
      let yv := if useNiat then p.2.niat else p.2.roa
      match yv, p.1, p.2.emp, p.2.dr with
      | some y, some e, some m, some d => some ⟨g.1, y, e, m, d⟩
      | _, _, _, _ => none))

/-- `drop_singletons`: keep the rows of entities appearing at least twice. -/
def drop_singletons (rows : List DRow) : List DRow :=
  rows.filter (fun r => 2 ≤ rows.countP (fun s => s.ent == r.ent))

/-- Minimum per-entity row count (`value_counts().min()`), `0` on an empty
frame (the source only evaluates it on nonempty frames). -/
def minEntityCount (rows : List DRow) : ℕ :=
  (((rows.map (·.ent)).dedup).map
    (fun e => rows.countP (fun s => s.ent == e))).foldr min rows.length

/-- Statistics extracted from a successful `PanelOLS(...).fit(...)`. -/
structure AStats where
  nobs : ℕ
  r2w : ℚ
  coef : ℚ
  p : ℚ
deriving DecidableEq

/-- One output row of model A's results table. -/
structure ARow where
  subset : String
  outcome : String
  lag : ℕ
  nobs : ℕ
  r2w : Option ℚ
  coefESG : Option ℚ
  pESG : Option ℚ
  status : String
deriving DecidableEq

/-- `fit_one(block, outcome, lag, label)`.  The `PanelOLS` estimation is the
oracle `fit`; an exception it raises (`Except.error`) propagates out of
`fit_one`, which has no handler. -/
def fit_one (fit : List DRow → Except String AStats)
    (block : List (List MRow)) (useNiat : Bool) (lag : ℕ) (label : String) :
    Except String ARow :=
  let data := drop_singletons (dataOf block useNiat lag)
  if data.length = 0 ∨ minEntityCount data < 2 then
    Except.ok ⟨label, if useNiat then "NIAT" else "ROA", lag, 0, none, none,
      none, "no_estimable_panel"⟩
  else
    (fit data).map (fun s =>
      ⟨label, if useNiat then "NIAT" else "ROA", lag, s.nobs, some s.r2w,
        some s.coef, some s.p, "ok"⟩)

/-- The body of the outcome × lag loop over one subset, appending rows one
at a time; an exception from any single `fit_one` aborts the whole loop,
discarding the rows gathered so far. -/
def run_combos (fit : List DRow → Except String AStats)
    (block : List (List MRow)) (label : String) :
    List (Bool × ℕ) → Except String (List ARow)
  | [] => Except.ok []
  | c :: cs =>
    match fit_one fit block c.1 c.2 label with
    | Except.error e => Except.error e
    | Except.ok r =>
      match run_combos fit block label cs with
      | Except.error e => Except.error e
      | Except.ok rs => Except.ok (r :: rs)

/-- The outcome × lag loop of model A's main block over one subset. -/
def batch (fit : List DRow → Except String AStats)
    (block : List (List MRow)) (label : String) : Except String (List ARow) :=
  run_combos fit block label
    (([false, true] : List Bool).flatMap
      (fun uy => (List.range 4).map (fun lag => (uy, lag))))

/-- `covid = df.loc[(yrs >= 2020) & (yrs <= 2021)]`. -/
def covid {α : Type} (year : α → ℤ) (rows : List α) : List α :=
  rows.filter (fun r => decide (2020 ≤ year r) && decide (year r ≤ 2021))

/-- `non_covid = df.loc[(yrs < 2020) | (yrs >= 2022)]`. -/
def non_covid {α : Type} (year : α → ℤ) (rows : List α) : List α :=
  rows.filter (fun r => decide (year r < 2020) || decide (2022 ≤ year r))

end ModelA

/-! ### `controls_summary.py` -/

namespace Controls

/-- One prepared firm-year record (`prep` output), grouped by entity. -/
structure PRow where
  year : ℤ
  esg : Option ℚ
  roa : Option ℚ
  niat : Option ℚ
  emp : Option ℚ
  debt : Option ℚ
deriving DecidableEq

/-- One row of the per-lag design frame after
`df_lag[cols].dropna()`, `cols = [ROA, NIAT, ESG_lagL, Employees, Debt]`. -/
structure DRow where
  ent : String
  year : ℤ
  roa : ℚ
  niat : ℚ
  esgLag : ℚ
  emp : ℚ
  debt : ℚ
deriving DecidableEq

/-- Build the lag-`L` design frame: shift ESG within each entity group, then
drop every row missing any of the two outcomes, the lagged ESG or the two
controls. -/
def designFor (panel : List (String × List PRow)) (lag : ℕ) : List DRow :=
  panel.flatMap (fun g =>
    ((Panel.shift lag (g.2.map (·.esg))).zip g.2).filterMap (fun p =>
      match p.2.roa, p.2.niat, p.1, p.2.emp, p.2.debt with
      | some a, some b, some e, some m, some d =>
          some ⟨g.1, p.2.year, a, b, e, m, d⟩
      | _, _, _, _, _ => none))

/-- Number of distinct entities in a design frame (`nunique` on level 0). -/
def nEntities (rows : List DRow) : ℕ := ((rows.map (·.ent)).dedup).length

/-- Number of distinct time points in a design frame (`nunique` on level 1). -/
def nTimes (rows : List DRow) : ℕ := ((rows.map (·.year)).dedup).length

/-- `valid_panel(df_idxed)`. -/
def valid_panel (rows : List DRow) : Bool :=
  decide (2 ≤ nEntities rows) && decide (2 ≤ nTimes rows)
    && decide (10 < rows.length)

/-- Coefficient/p-value pairs extracted from a successful fit. -/
structure CStats where
  coefEmp : ℚ
  pEmp : ℚ
  coefDebt : ℚ
  pDebt : ℚ
deriving DecidableEq

/-- One output row of `run_block`. -/
structure CRow where
  label : String
  outcome : String
  lag : ℕ
  entities : ℕ
  obsUsed : ℕ
  clusteredSEs : String
  coefEmp : Option ℚ
  pEmp : Option ℚ
  coefDebt : Option ℚ
  pDebt : Option ℚ
  note : String
deriving DecidableEq

/-- `try_fit(df_idxed, ycol, lag, label)`: the base row carries NaN
coefficients and an empty note; a successful fit fills the coefficients, an
exception of type name `e` sets `note = "skipped: " ++ e` and the row is
still returned. -/
def try_fit (fit : List DRow → Bool → Except String CStats)
    (rows : List DRow) (useNiat : Bool) (lag : ℕ) (label : String) : CRow :=
  let base : CRow := ⟨label, if useNiat then "NIAT" else "ROA", lag,
    nEntities rows, rows.length, "entity+year", none, none, none, none, ""⟩
  match fit rows useNiat with
  | Except.ok s =>
      { base with coefEmp := some s.coefEmp, pEmp := some s.pEmp,
                  coefDebt := some s.coefDebt, pDebt := some s.pDebt }
  | Except.error e => { base with note := "skipped: " ++ e }

/-- The skipped row recorded when `valid_panel` fails. -/
def skip_row (rows : List DRow) (useNiat : Bool) (lag : ℕ) (label : String) :
    CRow :=
  ⟨label, if useNiat then "NIAT" else "ROA", lag,
    if rows.length = 0 then 0 else nEntities rows, rows.length,
    "entity+year", none, none, none, none, "skipped: insufficient panel"⟩

/-- `run_block(df_idxed, label)`: lags 0..2; for each lag, either two fitted
rows or two skipped rows (ROA first, then NIAT). -/
def run_block (fit : List DRow → Bool → Except String CStats)
    (panel : List (String × List PRow)) (label : String) : List CRow :=
  ([0, 1, 2] : List ℕ).flatMap (fun lag =>
    let d := designFor panel lag
    if valid_panel d then
      [try_fit fit d false lag label, try_fit fit d true lag label]
    else
      [skip_row d false lag label, skip_row d true lag label])

/-- `idx[idx[TIME].between(2020, 2021)]`. -/
def covid {α : Type} (year : α → ℤ) (rows : List α) : List α :=
  rows.filter (fun r => decide (2020 ≤ year r) && decide (year r ≤ 2021))

/-- `idx[idx[TIME].between(2008, 2019) | idx[TIME].between(2022, 2024)]`. -/
def noncovid {α : Type} (year : α → ℤ) (rows : List α) : List α :=
  rows.filter (fun r =>
    (decide (2008 ≤ year r) && decide (year r ≤ 2019))
      || (decide (2022 ≤ year r) && decide (year r ≤ 2024)))

end Controls

/-! ### `vif_diagnostics.py` and `statsmodels.variance_inflation_factor` -/

namespace Vif

/-- Componentwise difference of two equal-length vectors. -/
def vecSub (a b : List ℚ) : List ℚ := List.zipWith (· - ·) a b

/-- Componentwise sum of two equal-length vectors. -/
def vecAdd (a b : List ℚ) : List ℚ := List.zipWith (· + ·) a b

/-- Scalar multiple of a vector. -/
def vecSmul (c : ℚ) (v : List ℚ) : List ℚ := v.map (fun a => c * a)

/-- `X @ beta` for a design of `n`-entry regressor columns `Xs`: the linear
combination of the columns with the coefficients `β`, the zero vector when
there are no regressors. -/
def lincombCols (n : ℕ) (Xs : List (List ℚ)) (β : List ℚ) : List ℚ :=
  (List.zipWith vecSmul β Xs).foldr vecAdd (List.replicate n 0)

/-- Residuals `x - X β` of regressing the column `x` on the columns `Xs`
with coefficient vector `β`. -/
def olsResid (x : List ℚ) (Xs : List (List ℚ)) (β : List ℚ) : List ℚ :=
  vecSub x (lincombCols x.length Xs β)

/-- Residual sum of squares of that regression. -/
def ssr (x : List ℚ) (Xs : List (List ℚ)) (β : List ℚ) : ℚ :=
  dot (olsResid x Xs β) (olsResid x Xs β)

/-- `OLS(x_i, x_noti).fit().rsquared` — statsmodels adds no constant, so this
is the uncentred R², `1 - ssr / sum(x²)`.  `ols x Xs` abstracts the
pseudo-inverse least-squares solve `OLS(x, X).fit().params`; the theorems
characterise it by the normal equations it satisfies. -/
def rsquared (ols : List ℚ → List (List ℚ) → List ℚ) (x : List ℚ)
    (Xs : List (List ℚ)) : ℚ :=
  1 - ssr x Xs (ols x Xs) / dot x x

/-- `1. / (1. - r_squared_i)`: a zero denominator (perfect collinearity) is
the float infinity, modelled as `none`. -/
def vifOLS (ols : List ℚ → List (List ℚ) → List ℚ) (x : List ℚ)
    (Xs : List (List ℚ)) : Option ℚ :=
  if 1 - rsquared ols x Xs = 0 then none
  else some (1 / (1 - rsquared ols x Xs))

/-- Drop the `i`-th element (statsmodels' boolean mask
`arange(k_vars) != exog_idx`, keeping the other columns in order). -/
def removeNth {α : Type} (i : ℕ) (l : List α) : List α :=
  l.take i ++ l.drop (i + 1)

/-- `variance_inflation_factor(exog, exog_idx)`: regress column `i` on all
the other `K - 1` columns and return `1/(1 - R²_i)`. -/
def variance_inflation_factor (ols : List ℚ → List (List ℚ) → List ℚ)
    (cols : List (List ℚ)) (i : ℕ) : Option ℚ :=
  vifOLS ols (cols.getD i []) (removeNth i cols)

/-- `vif_table(X)` on a `K`-column block: drop the rows with any missing
value, then compute `variance_inflation_factor` for every column index of
the block. -/
def vif_table (ols : List ℚ → List (List ℚ) → List ℚ) (K : ℕ)
    (rows : List (List (Option ℚ))) : List (Option ℚ) :=
  let kept := rows.filterMap (fun r =>
    if r.all (·.isSome) then some (r.filterMap id) else none)
  let cols := transposeL kept
  (List.range K).map (fun i => variance_inflation_factor ols cols i)

/-- Numerator of the Pearson correlation of two equal-length columns
(`sum((x - mean x)(y - mean y))`); it is zero exactly when the columns are
perfectly uncorrelated. -/
def pearsonNum (x y : List ℚ) : ℚ :=
  ((x.map (fun a => a - listMean x)).zipWith (· * ·)
    (y.map (fun b => b - listMean y))).sum

end Vif

/-! ### `model_diagnostics.py`, Pesaran CD block -/

namespace Diag

/-- One residual observation, indexed by (entity, time). -/
structure RRow where
  ent : ℕ
  time : ℤ
  val : ℚ
deriving DecidableEq

/-- `e.unstack(level=0)`: the time × entity matrix of residuals, rows in
first-appearance time order, columns in first-appearance entity order,
missing cells `none` (the (entity, time) index of a fit result is unique). -/
def unstack (series : List RRow) : List (List (Option ℚ)) :=
  let ents := (series.map (·.ent)).dedup
  let times := (series.map (·.time)).dedup
  times.map (fun t => ents.map (fun c =>
    (series.find? (fun r => r.ent == c && r.time == t)).map (·.val)))

/-- `M.dropna(how="all", axis=0)`: drop the all-missing rows. -/
def dropAllNanRows (M : List (List (Option ℚ))) : List (List (Option ℚ)) :=
  M.filter (fun r => r.any (·.isSome))

/-- The entity columns surviving `dropna(how="all", axis=1)`, column-major. -/
def keptCols (M : List (List (Option ℚ))) : List (List (Option ℚ)) :=
  (transposeL (dropAllNanRows M)).filter (fun c => c.any (·.isSome))

/-- Mean of the present entries of a column/row (pandas `mean` skips NaN). -/
def nanMean (l : List (Option ℚ)) : ℚ := listMean (l.filterMap id)

/-- `M - M.mean(axis=0)` then `M.sub(M.mean(axis=1), axis=0)`: de-mean each
entity column, then de-mean each time row, missing entries staying missing.
Input and output are column-major. -/
def demean (cols : List (List (Option ℚ))) : List (List (Option ℚ)) :=
  let c1 := cols.map (fun c => c.map (Option.map (fun v => v - nanMean c)))
  transposeL ((transposeL c1).map (fun r =>
    r.map (Option.map (fun v => v - nanMean r))))

/-- Pairwise Pearson correlation of two entity columns over their common
present rows, as `DataFrame.corr` computes it; `sqrtA` abstracts the float
square root.  Undefined (NaN) when there are no common rows or a zero
variance. -/
def corrPair (sqrtA : ℚ → ℚ) (a b : List (Option ℚ)) : Option ℚ :=
  let ps := (a.zip b).filterMap (fun p =>
    match p.1, p.2 with
    | some x, some y => some (x, y)
    | _, _ => none)
  if ps.length = 0 then none
  else
    let xs := ps.map (·.1)
    let ys := ps.map (·.2)
    let dx := xs.map (fun v => v - listMean xs)
    let dy := ys.map (fun v => v - listMean ys)
    let sxx := dot dx dx
    let syy := dot dy dy
    if sxx * syy = 0 then none
    else some (dot dx dy / sqrtA (sxx * syy))

/-- The upper-triangle pairwise correlations (`R.values[triu_indices(N, 1)]`)
of the de-meaned entity columns. -/
def upperTriCorrs (sqrtA : ℚ → ℚ) (cols : List (List (Option ℚ))) :
    List (Option ℚ) :=
  (cols.enum).flatMap (fun p =>
    ((cols.enum).filter (fun q => p.1 < q.1)).map
      (fun q => corrPair sqrtA p.2 q.2))

/-- `np.nanmean` over the upper triangle: NaN correlations are skipped, and
an all-NaN collection yields NaN. -/
def rbarOf (sqrtA : ℚ → ℚ) (cols : List (List (Option ℚ))) : Option ℚ :=
  let vs := (upperTriCorrs sqrtA cols).filterMap id
  if vs.length = 0 then none else some (listMean vs)

/-- Number of time rows after the drops (`M.shape[0]`). -/
def shapeT (M : List (List (Option ℚ))) : ℕ := (dropAllNanRows M).length

/-- Number of entity columns after the drops (`M.shape[1]`, which also
equals `R.shape[0]`). -/
def shapeN (M : List (List (Option ℚ))) : ℕ := (keptCols M).length

/-- The Pesaran CD block of `model_diagnostics.py` on a residual series:
returns `(cd_stat, cd_pval)`, both `NaN` when fewer than 3 time rows or 2
entity columns remain.  `sqrtA` abstracts `np.sqrt`, `normCdf` abstracts
`scipy.stats.norm.cdf`. -/
def pesaranCD (sqrtA normCdf : ℚ → ℚ) (series : List RRow) :
    Option ℚ × Option ℚ :=
  let M := unstack series
  if 3 ≤ shapeT M ∧ 2 ≤ shapeN M then
    let r := rbarOf sqrtA (demean (keptCols M))
    let s := r.map (fun rb =>
      sqrtA (shapeT M : ℚ) * rb
        * sqrtA (((shapeN M : ℚ) * ((shapeN M : ℚ) - 1)) / 2))
    (s, s.map (fun v => 2 * (1 - normCdf |v|)))
  else (none, none)

end Diag

/-! ### Helper lemmas -/

theorem filter_complement_length {α : Type} (p q : α → Bool) :
    ∀ l : List α, (∀ x ∈ l, p x = !q x) →
      (l.filter p).length + (l.filter q).length = l.length := by
  intro l
  induction l with
  | nil => intro _; rfl
  | cons a t ih =>
    intro h
    have ha := h a (List.mem_cons_self a t)
    have ht : ∀ x ∈ t, p x = !q x := fun x hx => h x (List.mem_cons_of_mem a hx)
    have iht := ih ht
    by_cases hq : q a
    · have hp : p a = false := by rw [ha, hq]; rfl
      simp only [List.filter_cons, hq, hp, if_true, if_false, List.length_cons,
        List.length_nil, Bool.false_eq_true]
      omega
    · have hq' : q a = false := by simpa using hq
      have hp : p a = true := by rw [ha, hq']; rfl
      simp only [List.filter_cons, hq', hp, if_true, if_false, List.length_cons,
        List.length_nil, Bool.false_eq_true]
      omega

theorem dot_comm : ∀ v w : List ℚ, dot v w = dot w v := by
  intro v
  induction v with
  | nil => intro w; cases w <;> rfl
  | cons a t ih =>
    intro w
    cases w with
    | nil => rfl
    | cons b s => simp [dot, List.zipWith_cons_cons] at *; rw [mul_comm]; rw [ih s]

theorem dot_vecSmul_left (c : ℚ) :
    ∀ v w : List ℚ, dot (Vif.vecSmul c v) w = c * dot v w := by
  intro v
  induction v with
  | nil => intro w; simp [dot, Vif.vecSmul]
  | cons a t ih =>
    intro w
    cases w with
    | nil => simp [dot, Vif.vecSmul]
    | cons b s =>
      simp only [Vif.vecSmul, List.map_cons, dot, List.zipWith_cons_cons,
        List.sum_cons] at *
      rw [ih s]
      ring

theorem dot_replicate_zero_left :
    ∀ (n : ℕ) (w : List ℚ), dot (List.replicate n 0) w = 0 := by
  intro n
  induction n with
  | zero => intro w; rfl
  | succ m ih =>
    intro w
    cases w with
    | nil => rfl
    | cons b s =>
      simp only [List.replicate_succ, dot, List.zipWith_cons_cons,
        List.sum_cons] at *
      rw [ih s]
      ring

theorem dot_vecAdd_left :
    ∀ a b w : List ℚ, a.length = w.length → b.length = w.length →
      dot (Vif.vecAdd a b) w = dot a w + dot b w := by
  intro a
  induction a with
  | nil =>
    intro b w ha hb
    have : w = [] := List.length_eq_zero.mp ha.symm
    subst this
    have : b = [] := List.length_eq_zero.mp hb
    subst this
    simp [dot, Vif.vecAdd]
  | cons x t ih =>
    intro b w ha hb
    cases w with
    | nil => simp at ha
    | cons z u =>
      cases b with
      | nil => simp at hb
      | cons y v =>
        simp only [Vif.vecAdd, dot, List.zipWith_cons_cons, List.sum_cons,
          List.length_cons] at *
        rw [ih v u (by omega) (by omega)]
        ring

theorem dot_vecSub_right :
    ∀ w a b : List ℚ, a.length = w.length → b.length = w.length →
      dot w (Vif.vecSub a b) = dot w a - dot w b := by
  intro w
  induction w with
  | nil =>
    intro a b ha hb
    have : a = [] := List.length_eq_zero.mp ha
    subst this
    have : b = [] := List.length_eq_zero.mp hb
    subst this
    simp [dot, Vif.vecSub]
  | cons z u ih =>
    intro a b ha hb
    cases a with
    | nil => simp at ha
    | cons x t =>
      cases b with
      | nil => simp at hb
      | cons y v =>
        simp only [Vif.vecSub, dot, List.zipWith_cons_cons, List.sum_cons,
          List.length_cons] at *
        rw [ih t v (by omega) (by omega)]
        ring

theorem lincomb_length (n : ℕ) :
    ∀ (Xs : List (List ℚ)) (β : List ℚ), (∀ c ∈ Xs, c.length = n) →
      (Vif.lincombCols n Xs β).length = n := by
  intro Xs
  induction Xs with
  | nil =>
    intro β _
    simp [Vif.lincombCols]
  | cons c cs ih =>
    intro β h
    cases β with
    | nil => simp [Vif.lincombCols]
    | cons b bs =>
      have hc : c.length = n := h c (List.mem_cons_self c cs)
      have hcs : ∀ x ∈ cs, x.length = n :=
        fun x hx => h x (List.mem_cons_of_mem c hx)
      have := ih bs hcs
      simp only [Vif.lincombCols, List.zipWith_cons_cons, List.foldr_cons,
        Vif.vecAdd, List.length_zipWith, Vif.vecSmul, List.length_map] at *
      omega

theorem dot_lincomb_left (n : ℕ) :
    ∀ (Xs : List (List ℚ)) (β w : List ℚ), (∀ c ∈ Xs, c.length = n) →
      w.length = n → (∀ c ∈ Xs, dot c w = 0) →
      dot (Vif.lincombCols n Xs β) w = 0 := by
  intro Xs
  induction Xs with
  | nil =>
    intro β w _ _ _
    simp only [Vif.lincombCols, List.zipWith_nil_right, List.foldr_nil]
    exact dot_replicate_zero_left n w
  | cons c cs ih =>
    intro β w h hw hz
    cases β with
    | nil =>
      simp only [Vif.lincombCols, List.zipWith_nil_left, List.foldr_nil]
      exact dot_replicate_zero_left n w
    | cons b bs =>
      have hc : c.length = n := h c (List.mem_cons_self c cs)
      have hcs : ∀ x ∈ cs, x.length = n :=
        fun x hx => h x (List.mem_cons_of_mem c hx)
      have hzc : dot c w = 0 := hz c (List.mem_cons_self c cs)
      have hzcs : ∀ x ∈ cs, dot x w = 0 :=
        fun x hx => hz x (List.mem_cons_of_mem c hx)
      have hrest := ih bs w hcs hw hzcs
      show dot (Vif.vecAdd (Vif.vecSmul b c) (Vif.lincombCols n cs bs)) w = 0
      rw [dot_vecAdd_left (Vif.vecSmul b c) (Vif.lincombCols n cs bs) w
        (by simp [Vif.vecSmul, hc, hw]) (by rw [lincomb_length n cs bs hcs, hw]),
        dot_vecSmul_left, hzc, hrest]
      ring

theorem olsResid_length (x : List ℚ) (Xs : List (List ℚ)) (β : List ℚ)
    (h : ∀ c ∈ Xs, c.length = x.length) :
    (Vif.olsResid x Xs β).length = x.length := by
  simp only [Vif.olsResid, Vif.vecSub, List.length_zipWith,
    lincomb_length x.length Xs β h]
  omega

/-- `ssr` split by bilinearity: `⟨r, r⟩ = ⟨r, x⟩ − ⟨r, Xβ⟩`. -/
theorem ssr_split (x : List ℚ) (Xs : List (List ℚ)) (β : List ℚ)
    (hlen : ∀ c ∈ Xs, c.length = x.length) :
    Vif.ssr x Xs β = dot (Vif.olsResid x Xs β) x
      - dot (Vif.olsResid x Xs β) (Vif.lincombCols x.length Xs β) := by
  have hL : (Vif.lincombCols x.length Xs β).length = x.length :=
    lincomb_length x.length Xs β hlen
  have hr : (Vif.olsResid x Xs β).length = x.length :=
    olsResid_length x Xs β hlen
  show dot (Vif.olsResid x Xs β)
      (Vif.vecSub x (Vif.lincombCols x.length Xs β)) = _
  rw [dot_vecSub_right (Vif.olsResid x Xs β) x
    (Vif.lincombCols x.length Xs β) (by omega) (by omega)]

/-- When the residual satisfies the normal equations and the column is
orthogonal to every regressor, the residual sum of squares equals the
uncentred total sum of squares. -/
theorem ssr_orth (x : List ℚ) (Xs : List (List ℚ)) (β : List ℚ)
    (hlen : ∀ c ∈ Xs, c.length = x.length)
    (hne : ∀ c ∈ Xs, dot c (Vif.olsResid x Xs β) = 0)
    (horth : ∀ c ∈ Xs, dot x c = 0) :
    Vif.ssr x Xs β = dot x x := by
  have hL : (Vif.lincombCols x.length Xs β).length = x.length :=
    lincomb_length x.length Xs β hlen
  have hr : (Vif.olsResid x Xs β).length = x.length :=
    olsResid_length x Xs β hlen
  have h2 : dot (Vif.olsResid x Xs β) (Vif.lincombCols x.length Xs β) = 0 := by
    rw [dot_comm]
    exact dot_lincomb_left x.length Xs β (Vif.olsResid x Xs β) hlen hr hne
  have h3 : dot x (Vif.lincombCols x.length Xs β) = 0 := by
    rw [dot_comm]
    refine dot_lincomb_left x.length Xs β x hlen rfl ?_
    intro c hc
    rw [dot_comm]
    exact horth c hc
  have h4 : dot (Vif.olsResid x Xs β) x = dot x x := by
    rw [dot_comm]
    show dot x (Vif.vecSub x (Vif.lincombCols x.length Xs β)) = dot x x
    rw [dot_vecSub_right x x (Vif.lincombCols x.length Xs β) rfl hL, h3]
    ring
  rw [ssr_split x Xs β hlen, h2, h4]
  ring

/-- When the residual satisfies the normal equations and the column is an
exact linear combination of the regressors, the residual sum of squares
vanishes. -/
theorem ssr_exact (x : List ℚ) (Xs : List (List ℚ)) (β γ : List ℚ)
    (hlen : ∀ c ∈ Xs, c.length = x.length)
    (hne : ∀ c ∈ Xs, dot c (Vif.olsResid x Xs β) = 0)
    (hrep : x = Vif.lincombCols x.length Xs γ) :
    Vif.ssr x Xs β = 0 := by
  have hr : (Vif.olsResid x Xs β).length = x.length :=
    olsResid_length x Xs β hlen
  have h2 : dot (Vif.olsResid x Xs β) (Vif.lincombCols x.length Xs β) = 0 := by
    rw [dot_comm]
    exact dot_lincomb_left x.length Xs β (Vif.olsResid x Xs β) hlen hr hne
  have h3 : dot (Vif.olsResid x Xs β) x = 0 := by
    rw [dot_comm]
    nth_rewrite 1 [hrep]
    exact dot_lincomb_left x.length Xs γ (Vif.olsResid x Xs β) hlen hr hne
  rw [ssr_split x Xs β hlen, h2, h3]
  ring

/-! ### Claim theorems -/

/-- **C2** (amended).  The COVID window and its complement as models A and B
take them (`[2020, 2021]` and `(-inf, 2020) ∪ [2022, inf)`) partition every
panel exactly; the controls-summary split, whose non-COVID window is
restricted to the outer range `2008–2024`, partitions exactly those panels
whose years all lie within `2008–2024`. -/
theorem c2_covid_partition (rows : List ℤ) :
    ((ModelA.covid id rows).length + (ModelA.non_covid id rows).length = rows.length
      ∧ ∀ y ∈ rows, (y ∈ ModelA.covid id rows ↔ y ∉ ModelA.non_covid id rows))
    ∧ ((∀ y ∈ rows, 2008 ≤ y ∧ y ≤ 2024) →
        (Controls.covid id rows).length + (Controls.noncovid id rows).length = rows.length
          ∧ ∀ y ∈ rows, (y ∈ Controls.covid id rows ↔ y ∉ Controls.noncovid id rows)) := by
  constructor
  · constructor
    · apply filter_complement_length
      intro y _
      by_cases h1 : 2020 ≤ y <;> by_cases h2 : y ≤ 2021 <;>
        simp [h1, h2] <;> omega
    · intro y hy
      simp only [ModelA.covid, ModelA.non_covid, List.mem_filter, hy, true_and, id]
      by_cases h1 : 2020 ≤ y <;> by_cases h2 : y ≤ 2021 <;> simp [h1, h2] <;> omega
  · intro hrange
    constructor
    · apply filter_complement_length
      intro y hy
      have := hrange y hy
      by_cases h1 : 2020 ≤ y <;> by_cases h2 : y ≤ 2021 <;>
        simp [h1, h2] <;> omega
    · intro y hy
      have := hrange y hy
      simp only [Controls.covid, Controls.noncovid, List.mem_filter, hy, true_and, id]
      by_cases h1 : 2020 ≤ y <;> by_cases h2 : y ≤ 2021 <;> simp [h1, h2] <;> omega

/-- Witness for C2 at a concrete panel within the outer range. -/
theorem c2_covid_partition_witness :
    (∀ y ∈ ([2019, 2020, 2024] : List ℤ), 2008 ≤ y ∧ y ≤ 2024)
    ∧ (Controls.covid id [2019, 2020, 2024]).length
        + (Controls.noncovid id [2019, 2020, 2024]).length
        = ([2019, 2020, 2024] : List ℤ).length
    ∧ (ModelA.covid id [2019, 2020, 2024]).length
        + (ModelA.non_covid id [2019, 2020, 2024]).length
        = ([2019, 2020, 2024] : List ℤ).length :=
  ⟨by decide,
   ((c2_covid_partition [2019, 2020, 2024]).2 (by decide)).1,
   (c2_covid_partition [2019, 2020, 2024]).1.1⟩

/-- **C2 counterexample**: on the controls-summary split, the row with year
2007 belongs to neither the COVID window nor the non-COVID window, and the
two row counts do not sum to the panel's row count. -/
theorem c2_covid_partition_cex :
    (2007 : ℤ) ∉ Controls.covid id [(2007 : ℤ)]
    ∧ (2007 : ℤ) ∉ Controls.noncovid id [(2007 : ℤ)]
    ∧ (Controls.covid id [(2007 : ℤ)]).length
        + (Controls.noncovid id [(2007 : ℤ)]).length
        ≠ ([(2007 : ℤ)] : List ℤ).length := by
  decide

/-- **C3**.  The lag builder `groupby(level=0).shift(L)` on one entity group:
the output has the group's length, its first `L` positions are missing, the
position-`i` value for `i ≥ L` is the source value at position `i − L`,
`L = 0` is the identity, the result never depends on the time stamps
(calendar gaps are ignored), and the synthetic example with times
`[2018..2021]` and values `[10, 20, 30, 40]` yields `[NaN, 10, 20, 30]` at
`L = 1` and `[NaN, NaN, 10, 20]` at `L = 2`. -/
theorem c3_lag_builder :
    (∀ (L : ℕ) (xs : List (Option ℚ)),
      (Panel.shift L xs).length = xs.length
      ∧ (∀ i : ℕ, i < L → i < xs.length → (Panel.shift L xs)[i]? = some none)
      ∧ (∀ i : ℕ, L ≤ i → i < xs.length → (Panel.shift L xs)[i]? = xs[i - L]?)
      ∧ Panel.shift 0 xs = xs
      ∧ (∀ rows rows' : List (ℤ × Option ℚ),
          rows.map Prod.snd = rows'.map Prod.snd →
          (Panel.shiftColumn L rows).map Prod.snd
            = (Panel.shiftColumn L rows').map Prod.snd))
    ∧ Panel.shift 1 [some (10 : ℚ), some 20, some 30, some 40]
        = [none, some 10, some 20, some 30]
    ∧ Panel.shift 2 [some (10 : ℚ), some 20, some 30, some 40]
        = [none, none, some 10, some 20] := by
  refine ⟨fun L xs => ⟨?_, ?_, ?_, ?_, ?_⟩, by decide, by decide⟩
  · simp [Panel.shift]
    omega
  · intro i hiL hin
    have hrep : i < (List.replicate (min L xs.length) (none : Option ℚ)).length := by
      simp
      omega
    rw [Panel.shift, List.getElem?_append, if_pos hrep, List.getElem?_replicate,
      if_pos (by omega : i < min L xs.length)]
  · intro i hLi hin
    have hlen : (List.replicate (min L xs.length) (none : Option ℚ)).length = L := by
      simp
      omega
    rw [Panel.shift, List.getElem?_append, hlen, if_neg (by omega),
      List.getElem?_take, if_pos (by omega)]
  · simp [Panel.shift]
  · intro rows rows' h
    have hlen : rows.length = rows'.length := by
      have := congrArg List.length h
      simpa using this
    simp only [Panel.shiftColumn]
    rw [List.map_snd_zip, List.map_snd_zip, h]
    · simp only [Panel.shift, List.length_append, List.length_replicate,
        List.length_take, List.length_map]
      omega
    · simp only [Panel.shift, List.length_append, List.length_replicate,
        List.length_take, List.length_map, hlen]
      omega

/-- **C10**.  `Debt_ratio = Debt / Assets` followed by the
`replace([inf, -inf], nan)` step never leaves an infinity: a zero-assets row
becomes `NaN` (hence dropped by the subsequent `dropna`), every finite ratio
arises from finite debt and nonzero finite assets as their exact quotient,
and the design-matrix column (the finite survivors) only contains such
quotients. -/
theorem c10_debt_ratio :
    (∀ d a : ModelA.FVal,
      ModelA.build_debt_ratio d a ≠ ModelA.FVal.pinf
      ∧ ModelA.build_debt_ratio d a ≠ ModelA.FVal.ninf
      ∧ (a = ModelA.FVal.fin 0 → ModelA.build_debt_ratio d a = ModelA.FVal.nan)
      ∧ (∀ qd qa : ℚ, d = ModelA.FVal.fin qd → a = ModelA.FVal.fin qa → qa ≠ 0 →
          ModelA.build_debt_ratio d a = ModelA.FVal.fin (qd / qa)))
    ∧ (∀ l : List (ModelA.FVal × ModelA.FVal),
        ∀ q ∈ (l.map (fun p => ModelA.build_debt_ratio p.1 p.2)).filterMap
            ModelA.FVal.toFin,
          ∃ p ∈ l, ModelA.build_debt_ratio p.1 p.2 = ModelA.FVal.fin q) := by
  constructor
  · intro d a
    refine ⟨?_, ?_, ?_, ?_⟩
    · cases d <;> cases a <;>
        simp only [ModelA.build_debt_ratio, ModelA.fdiv, ModelA.replaceInf] <;>
        first
          | (split_ifs <;> simp)
          | simp
    · cases d <;> cases a <;>
        simp only [ModelA.build_debt_ratio, ModelA.fdiv, ModelA.replaceInf] <;>
        first
          | (split_ifs <;> simp)
          | simp
    · intro ha
      subst ha
      cases d <;>
        simp only [ModelA.build_debt_ratio, ModelA.fdiv, ModelA.replaceInf] <;>
        first
          | rfl
          | (split_ifs <;> first | rfl | omega | simp_all)
    · intro qd qa hd ha hqa
      subst hd
      subst ha
      simp only [ModelA.build_debt_ratio, ModelA.fdiv, ModelA.replaceInf,
        if_pos hqa]
  · intro l q hq
    rcases List.mem_filterMap.mp hq with ⟨v, hv, hfin⟩
    rcases List.mem_map.mp hv with ⟨p, hp, hpv⟩
    refine ⟨p, hp, ?_⟩
    rw [hpv]
    cases v <;> simp [ModelA.FVal.toFin] at hfin
    rw [hfin]

/-- Witness for C10 at concrete values: assets `0` gives `NaN`, and assets
`2` with debt `6` gives the finite ratio `3`. -/
theorem c10_debt_ratio_witness :
    ModelA.build_debt_ratio (ModelA.FVal.fin 6) (ModelA.FVal.fin 0) = ModelA.FVal.nan
    ∧ ModelA.build_debt_ratio (ModelA.FVal.fin 6) (ModelA.FVal.fin 2)
        = ModelA.FVal.fin (6 / 2) :=
  ⟨(c10_debt_ratio.1 (ModelA.FVal.fin 6) (ModelA.FVal.fin 0)).2.2.1 rfl,
   (c10_debt_ratio.1 (ModelA.FVal.fin 6) (ModelA.FVal.fin 2)).2.2.2 6 2 rfl rfl
     (by norm_num)⟩

/-- **C6** (amended).  For a design block of `K ≥ 2` regressor columns with
missing-value rows dropped first, the VIF of column `i` is `1/(1 − R²_i)`
from an ordinary-least-squares regression of column `i` on the other `K − 1`
columns, but that auxiliary regression has no intercept and its R² is
uncentred: whenever the least-squares coefficients satisfy the normal
equations, a column orthogonal to all the other columns gets VIF exactly 1,
and a column that is an exact linear combination of the other columns gets
an infinite VIF (zero denominator) rather than a crash — while a column
merely uncorrelated with the others (zero Pearson correlation but nonzero
means) can get a VIF far from 1. -/
theorem c6_vif :
    (∀ (ols : List ℚ → List (List ℚ) → List ℚ) (cols : List (List ℚ)) (i : ℕ),
        1 - Vif.rsquared ols (cols.getD i []) (Vif.removeNth i cols) ≠ 0 →
        Vif.variance_inflation_factor ols cols i
          = some (1 / (1 - Vif.rsquared ols (cols.getD i [])
              (Vif.removeNth i cols))))
    ∧ (∀ (ols : List ℚ → List (List ℚ) → List ℚ) (cols : List (List ℚ)) (i : ℕ),
        (∀ c ∈ Vif.removeNth i cols, c.length = (cols.getD i []).length) →
        (∀ c ∈ Vif.removeNth i cols,
          dot c (Vif.olsResid (cols.getD i []) (Vif.removeNth i cols)
            (ols (cols.getD i []) (Vif.removeNth i cols))) = 0) →
        (∀ c ∈ Vif.removeNth i cols, dot (cols.getD i []) c = 0) →
        dot (cols.getD i []) (cols.getD i []) ≠ 0 →
        Vif.variance_inflation_factor ols cols i = some 1)
    ∧ (∀ (ols : List ℚ → List (List ℚ) → List ℚ) (cols : List (List ℚ))
        (i : ℕ) (γ : List ℚ),
        (∀ c ∈ Vif.removeNth i cols, c.length = (cols.getD i []).length) →
        (∀ c ∈ Vif.removeNth i cols,
          dot c (Vif.olsResid (cols.getD i []) (Vif.removeNth i cols)
            (ols (cols.getD i []) (Vif.removeNth i cols))) = 0) →
        cols.getD i [] = Vif.lincombCols (cols.getD i []).length
          (Vif.removeNth i cols) γ →
        Vif.variance_inflation_factor ols cols i = none)
    ∧ (∀ (ols : List ℚ → List (List ℚ) → List ℚ) (K : ℕ)
        (rows : List (List (Option ℚ))),
        Vif.vif_table ols K rows
          = (List.range K).map (fun i => Vif.variance_inflation_factor ols
              (transposeL (rows.filterMap (fun r =>
                if r.all (·.isSome) then some (r.filterMap id) else none))) i)) := by
  refine ⟨?_, ?_, ?_, ?_⟩
  · intro ols cols i h
    simp only [Vif.variance_inflation_factor, Vif.vifOLS, if_neg h]
  · intro ols cols i hlen hne horth hx
    have hr2 : Vif.rsquared ols (cols.getD i []) (Vif.removeNth i cols) = 0 := by
      rw [Vif.rsquared,
        ssr_orth (cols.getD i []) (Vif.removeNth i cols)
          (ols (cols.getD i []) (Vif.removeNth i cols)) hlen hne horth,
        div_self hx]
      ring
    rw [Vif.variance_inflation_factor, Vif.vifOLS, hr2]
    norm_num
  · intro ols cols i γ hlen hne hrep
    have hr2 : Vif.rsquared ols (cols.getD i []) (Vif.removeNth i cols) = 1 := by
      rw [Vif.rsquared,
        ssr_exact (cols.getD i []) (Vif.removeNth i cols)
          (ols (cols.getD i []) (Vif.removeNth i cols)) γ hlen hne hrep,
        zero_div]
      ring
    rw [Vif.variance_inflation_factor, Vif.vifOLS, hr2]
    norm_num
  · intro ols K rows
    rfl

/-- Witness for C6: a column orthogonal to the other column gets VIF 1, and
a column that is exactly twice the other column gets the infinite VIF; in
both cases the supplied least-squares coefficients satisfy the normal
equations at the concrete block. -/
theorem c6_vif_witness :
    (∀ c ∈ Vif.removeNth 0 [[(1 : ℚ), -1, 1, -1], [1, 1, -1, -1]],
      dot c (Vif.olsResid ([[(1 : ℚ), -1, 1, -1], [1, 1, -1, -1]].getD 0 [])
        (Vif.removeNth 0 [[(1 : ℚ), -1, 1, -1], [1, 1, -1, -1]])
        ((fun _ _ => [0]) ([[(1 : ℚ), -1, 1, -1], [1, 1, -1, -1]].getD 0 [])
          (Vif.removeNth 0 [[(1 : ℚ), -1, 1, -1], [1, 1, -1, -1]]))) = 0)
    ∧ Vif.variance_inflation_factor (fun _ _ => [0])
        [[(1 : ℚ), -1, 1, -1], [1, 1, -1, -1]] 0 = some 1
    ∧ (∀ c ∈ Vif.removeNth 0 [[(2 : ℚ), 4, 6], [1, 2, 3]],
      dot c (Vif.olsResid ([[(2 : ℚ), 4, 6], [1, 2, 3]].getD 0 [])
        (Vif.removeNth 0 [[(2 : ℚ), 4, 6], [1, 2, 3]])
        ((fun _ _ => [2]) ([[(2 : ℚ), 4, 6], [1, 2, 3]].getD 0 [])
          (Vif.removeNth 0 [[(2 : ℚ), 4, 6], [1, 2, 3]]))) = 0)
    ∧ Vif.variance_inflation_factor (fun _ _ => [2])
        [[(2 : ℚ), 4, 6], [1, 2, 3]] 0 = none := by
  have hne1 : ∀ c ∈ Vif.removeNth 0 [[(1 : ℚ), -1, 1, -1], [1, 1, -1, -1]],
      dot c (Vif.olsResid ([[(1 : ℚ), -1, 1, -1], [1, 1, -1, -1]].getD 0 [])
        (Vif.removeNth 0 [[(1 : ℚ), -1, 1, -1], [1, 1, -1, -1]])
        ((fun _ _ => [0]) ([[(1 : ℚ), -1, 1, -1], [1, 1, -1, -1]].getD 0 [])
          (Vif.removeNth 0 [[(1 : ℚ), -1, 1, -1], [1, 1, -1, -1]]))) = 0 := by
    intro c hc
    simp only [Vif.removeNth, List.take, List.drop, List.nil_append,
      List.mem_cons, List.not_mem_nil, or_false] at hc
    subst hc
    norm_num [Vif.olsResid, Vif.lincombCols, Vif.vecSub, Vif.vecAdd,
      Vif.vecSmul, Vif.removeNth, dot, List.getD, List.replicate]
  have hne2 : ∀ c ∈ Vif.removeNth 0 [[(2 : ℚ), 4, 6], [1, 2, 3]],
      dot c (Vif.olsResid ([[(2 : ℚ), 4, 6], [1, 2, 3]].getD 0 [])
        (Vif.removeNth 0 [[(2 : ℚ), 4, 6], [1, 2, 3]])
        ((fun _ _ => [2]) ([[(2 : ℚ), 4, 6], [1, 2, 3]].getD 0 [])
          (Vif.removeNth 0 [[(2 : ℚ), 4, 6], [1, 2, 3]]))) = 0 := by
    intro c hc
    simp only [Vif.removeNth, List.take, List.drop, List.nil_append,
      List.mem_cons, List.not_mem_nil, or_false] at hc
    subst hc
    norm_num [Vif.olsResid, Vif.lincombCols, Vif.vecSub, Vif.vecAdd,
      Vif.vecSmul, Vif.removeNth, dot, List.getD, List.replicate]
  refine ⟨hne1, ?_, hne2, ?_⟩
  · refine c6_vif.2.1 (fun _ _ => [0]) [[(1 : ℚ), -1, 1, -1], [1, 1, -1, -1]] 0
      ?_ hne1 ?_ ?_
    · intro c hc
      simp only [Vif.removeNth, List.take, List.drop, List.nil_append,
        List.mem_cons, List.not_mem_nil, or_false] at hc
      subst hc
      rfl
    · intro c hc
      simp only [Vif.removeNth, List.take, List.drop, List.nil_append,
        List.mem_cons, List.not_mem_nil, or_false] at hc
      subst hc
      norm_num [dot, List.getD]
    · norm_num [dot, List.getD]
  · refine c6_vif.2.2.1 (fun _ _ => [2]) [[(2 : ℚ), 4, 6], [1, 2, 3]] 0 [2]
      ?_ hne2 ?_
    · intro c hc
      simp only [Vif.removeNth, List.take, List.drop, List.nil_append,
        List.mem_cons, List.not_mem_nil, or_false] at hc
      subst hc
      rfl
    · norm_num [Vif.lincombCols, Vif.vecAdd, Vif.vecSmul, List.getD,
        Vif.removeNth, List.replicate]

/-- **C6 counterexample**: on the block with columns `[1,2,1,2]` and
`[1,1,2,2]` — perfectly uncorrelated (Pearson numerator 0) — `vif_table`
reports `100/19 ≈ 5.26` for both columns, far from 1: the no-intercept
uncentred R² of the statsmodels auxiliary regression differs from the
centred one the claim presumes.  The least-squares coefficient `9/10` used
for both auxiliary regressions is certified by their normal equations, and
the fifth row, with a missing value, is dropped first. -/
theorem c6_vif_cex :
    Vif.vif_table (fun _ _ => [9 / 10]) 2
        [[some 1, some 1], [some 2, some 1], [some 1, some 2],
         [some 2, some 2], [none, some 5]]
      = [some (100 / 19), some (100 / 19)]
    ∧ dot [1, 1, 2, 2] (Vif.olsResid [1, 2, 1, 2] [[1, 1, 2, 2]] [9 / 10]) = 0
    ∧ dot [1, 2, 1, 2] (Vif.olsResid [1, 1, 2, 2] [[1, 2, 1, 2]] [9 / 10]) = 0
    ∧ Vif.pearsonNum [1, 2, 1, 2] [1, 1, 2, 2] = 0
    ∧ ¬ ((100 / 19 : ℚ) < 2) := by
  refine ⟨?_, ?_, ?_, ?_, by norm_num⟩
  · simp only [Vif.vif_table, Vif.variance_inflation_factor, Vif.vifOLS,
      Vif.rsquared, Vif.ssr, Vif.olsResid, Vif.lincombCols, Vif.vecSub,
      Vif.vecAdd, Vif.vecSmul, Vif.removeNth, dot, transposeL,
      List.filterMap_cons, List.filterMap_nil, List.range_succ]
    norm_num [List.getD, dot, List.replicate, Vif.vecAdd, Vif.vecSmul]
  · norm_num [Vif.olsResid, Vif.lincombCols, Vif.vecSub, Vif.vecAdd,
      Vif.vecSmul, dot, List.replicate]
  · norm_num [Vif.olsResid, Vif.lincombCols, Vif.vecSub, Vif.vecAdd,
      Vif.vecSmul, dot, List.replicate]
  · simp only [Vif.pearsonNum, listMean, List.map_cons, List.map_nil,
      List.zipWith_cons_cons, List.zipWith_nil_right, List.sum_cons,
      List.sum_nil, List.length_cons, List.length_nil]
    norm_num

/-- **C7** (amended).  When the difference matrix `V = Cov_FE − Cov_RE` is
positive semi-definite and the inverse the code obtains is a genuine
(right-)inverse of `V` on the difference vector, the Hausman statistic is
non-negative; the p-value is always computed as the chi-square upper tail of
the statistic, with no field of the result recording whether the
pseudo-inverse fallback was taken. -/
theorem c7_hausman_nonneg (α : Type) (fe re : Hausman.FitResult α)
    (keep : List α) (W : List (List ℚ)) (chi2cdf : ℚ → ℕ → ℚ)
    (hW : matVec (Hausman.subMat fe.cov re.cov keep)
        (matVec W (Hausman.subVec fe.params re.params keep))
      = Hausman.subVec fe.params re.params keep)
    (hpsd : ∀ v : List ℚ,
        0 ≤ dot v (matVec (Hausman.subMat fe.cov re.cov keep) v)) :
    0 ≤ (Hausman.hausman_stat (fun _ => W) chi2cdf fe re keep).stat
    ∧ (Hausman.hausman_stat (fun _ => W) chi2cdf fe re keep).pval
      = 1 - chi2cdf (Hausman.hausman_stat (fun _ => W) chi2cdf fe re keep).stat
          keep.length := by
  constructor
  · show 0 ≤ dot (Hausman.subVec fe.params re.params keep)
      (matVec W (Hausman.subVec fe.params re.params keep))
    calc (0 : ℚ)
        ≤ dot (matVec W (Hausman.subVec fe.params re.params keep))
            (matVec (Hausman.subMat fe.cov re.cov keep)
              (matVec W (Hausman.subVec fe.params re.params keep))) :=
          hpsd (matVec W (Hausman.subVec fe.params re.params keep))
      _ = dot (Hausman.subVec fe.params re.params keep)
            (matVec W (Hausman.subVec fe.params re.params keep)) := by
          rw [dot_comm, hW]
  · rfl

/-- Witness for C7: a concrete PSD difference matrix `[[1]]` with its exact
inverse gives the non-negative statistic. -/
theorem c7_hausman_nonneg_witness :
    matVec (Hausman.subMat
        (fun _ _ => (2 : ℚ)) (fun _ _ => (1 : ℚ)) ([()] : List Unit))
      (matVec [[1]] (Hausman.subVec (fun _ => (1 : ℚ)) (fun _ => (0 : ℚ)) [()]))
      = Hausman.subVec (fun _ => (1 : ℚ)) (fun _ => (0 : ℚ)) [()]
    ∧ 0 ≤ (Hausman.hausman_stat (fun _ => [[1]]) (fun _ _ => 0)
        (⟨fun _ => 1, fun _ _ => 2⟩ : Hausman.FitResult Unit)
        ⟨fun _ => 0, fun _ _ => 1⟩ [()]).stat := by
  have hW : matVec (Hausman.subMat
      (fun _ _ => (2 : ℚ)) (fun _ _ => (1 : ℚ)) ([()] : List Unit))
      (matVec [[1]] (Hausman.subVec (fun _ => (1 : ℚ)) (fun _ => (0 : ℚ)) [()]))
      = Hausman.subVec (fun _ => (1 : ℚ)) (fun _ => (0 : ℚ)) [()] := by
    simp only [Hausman.subMat, Hausman.subVec, matVec, dot, List.map_cons,
      List.map_nil, List.zipWith_cons_cons, List.zipWith_nil_right,
      List.sum_cons, List.sum_nil]
    norm_num
  refine ⟨hW, ?_⟩
  refine (c7_hausman_nonneg Unit ⟨fun _ => 1, fun _ _ => 2⟩
    ⟨fun _ => 0, fun _ _ => 1⟩ [()] [[1]] (fun _ _ => 0) hW ?_).1
  intro v
  cases v with
  | nil => simp [dot, matVec]
  | cons a t =>
    simp only [Hausman.subMat, matVec, dot, List.map_cons, List.map_nil,
      List.zipWith_cons_cons, List.zipWith_nil_right, List.zipWith_nil_left,
      List.sum_cons, List.sum_nil]
    nlinarith [mul_self_nonneg a]

/-- **C7 counterexample**: with one shared regressor, `Cov_FE = [[1]]` and
`Cov_RE = [[2]]` (both valid covariances), the difference matrix is the
nonsingular `[[-1]]`, whose exact inverse `np.linalg.inv` returns; the
reported statistic is `-1 < 0`, and the result tuple carries only
(statistic, df, p-value) — no flag field exists for the pseudo-inverse
fallback. -/
theorem c7_hausman_nonneg_cex :
    matMul (Hausman.subMat
        (fun _ _ => (1 : ℚ)) (fun _ _ => (2 : ℚ)) ([()] : List Unit)) [[-1]]
      = [[1]]
    ∧ (Hausman.hausman_stat (fun _ => [[-1]]) (fun _ _ => 0)
        (⟨fun _ => 1, fun _ _ => 1⟩ : Hausman.FitResult Unit)
        ⟨fun _ => 0, fun _ _ => 2⟩ [()]).stat = -1
    ∧ ((-1 : ℚ) < 0) := by
  refine ⟨?_, ?_, by norm_num⟩
  · simp only [matMul, transposeL, Hausman.subMat, dot, List.map_cons,
      List.map_nil, List.zipWith_cons_cons, List.zipWith_nil_right,
      List.sum_cons, List.sum_nil, List.isEmpty_nil, if_true]
    norm_num
  · simp only [Hausman.hausman_stat, Hausman.subVec, Hausman.subMat, matVec,
      dot, List.map_cons, List.map_nil, List.zipWith_cons_cons,
      List.zipWith_nil_right, List.sum_cons, List.sum_nil]
    norm_num

/-- **C5** (amended).  In models A and B every entity surviving
`drop_singletons` — i.e. every entity of the design matrix `fit_one`
estimates — appears at least twice; the Hausman script's `build_design` and
the controls summary perform no such drop, so their design matrices can
reach the estimator with singleton entities. -/
theorem c5_singletons (block : List (List ModelA.MRow)) (useNiat : Bool)
    (lag : ℕ) :
    ∀ e ∈ (ModelA.drop_singletons (ModelA.dataOf block useNiat lag)).map
        (fun r => r.ent),
      2 ≤ (ModelA.drop_singletons (ModelA.dataOf block useNiat lag)).countP
        (fun s => s.ent == e) := by
  intro e he
  set rows := ModelA.dataOf block useNiat lag with hrows
  rcases List.mem_map.mp he with ⟨r, hr, hre⟩
  rcases List.mem_filter.mp hr with ⟨hrmem, hrpred⟩
  have hcnt : 2 ≤ rows.countP (fun s => s.ent == r.ent) := by
    simpa using hrpred
  have hcnt_e : 2 ≤ rows.countP (fun s => s.ent == e) := by
    rw [← hre]
    exact hcnt
  have hsame : (ModelA.drop_singletons rows).countP (fun s => s.ent == e)
      = rows.countP (fun s => s.ent == e) := by
    rw [ModelA.drop_singletons, List.countP_filter]
    apply List.countP_congr
    intro a _
    constructor
    · intro h
      simp only [Bool.and_eq_true] at h
      exact h.1
    · intro h
      have hae : a.ent = e := by simpa using h
      simp only [Bool.and_eq_true, h, true_and, decide_eq_true_eq]
      rw [hae]
      exact hcnt_e
  rw [hsame]
  exact hcnt_e

/-- Witness for C5 on a concrete model-A panel: the surviving entity of a
two-row panel has two observations. -/
theorem c5_singletons_witness :
    0 ∈ (ModelA.drop_singletons (ModelA.dataOf
        [[⟨some 1, some 1, some 1, some 1, some 1⟩,
          ⟨some 2, some 2, some 2, some 2, some 2⟩]] false 0)).map
        (fun r => r.ent)
    ∧ 2 ≤ (ModelA.drop_singletons (ModelA.dataOf
        [[⟨some 1, some 1, some 1, some 1, some 1⟩,
          ⟨some 2, some 2, some 2, some 2, some 2⟩]] false 0)).countP
        (fun s => s.ent == 0) :=
  ⟨by decide,
   c5_singletons [[⟨some 1, some 1, some 1, some 1, some 1⟩,
      ⟨some 2, some 2, some 2, some 2, some 2⟩]] false 0 0 (by decide)⟩

/-- **C5 counterexample**: on the Hausman script's path, a panel whose first
firm has a single complete row and whose second firm has two produces a
design matrix in which entity 0 appears exactly once, the
`len(y) == 0 or X.shape[1] == 0` guard does not fire, and `run_block`
proceeds to the estimator (emitting a non-NA decision) — no singleton drop
happens before fitting. -/
theorem c5_singletons_cex :
    ((Hausman.build_design
        [[⟨some 1, none, some 1, some 1, some 1⟩],
         [⟨some 2, none, some 2, some 3, some 5⟩,
          ⟨some 3, none, some 4, some 7, some 2⟩]] false 0).rows.map
        (fun r => r.1)).count 0 = 1
    ∧ ¬ ((Hausman.build_design
        [[⟨some 1, none, some 1, some 1, some 1⟩],
         [⟨some 2, none, some 2, some 3, some 5⟩,
          ⟨some 3, none, some 4, some 7, some 2⟩]] false 0).rows.length = 0
        ∨ (Hausman.build_design
        [[⟨some 1, none, some 1, some 1, some 1⟩],
         [⟨some 2, none, some 2, some 3, some 5⟩,
          ⟨some 3, none, some 4, some 7, some 2⟩]] false 0).cols.length = 0)
    ∧ (Hausman.run_cell (fun m => m) (fun _ _ => 1) id
        (fun _ => ⟨fun _ => 0, fun _ _ => 0⟩) (fun _ => ⟨fun _ => 0, fun _ _ => 0⟩)
        [[⟨some 1, none, some 1, some 1, some 1⟩],
         [⟨some 2, none, some 2, some 3, some 5⟩,
          ⟨some 3, none, some 4, some 7, some 2⟩]] "full" "ROA" false 0).decision
      = "FE" := by
  refine ⟨by decide, by decide, ?_⟩
  simp [Hausman.run_cell, Hausman.hausman_stat, Hausman.build_design,
    Hausman.keptRows, Hausman.isConst, Hausman.subVec, Hausman.subMat,
    Hausman.KRow.at, Panel.shift, matVec, dot, List.enum]
  norm_num

/-- **C4** (amended).  In `controls_summary.py` the policy holds: an
exception of type name `e` raised while fitting one (outcome, lag)
combination is recorded on that combination's row as
`note = "skipped: " ++ e` with `NaN` coefficients, and `run_block` always
returns its full complement of six rows, so the batch continues; in models A
and B only the no-estimable-panel condition is converted to a skip row —
an estimator exception propagates out of `fit_one` and aborts the batch. -/
theorem c4_batch_policy :
    (∀ (fit : List Controls.DRow → Bool → Except String Controls.CStats)
        (panel : List (String × List Controls.PRow)) (label : String),
      (Controls.run_block fit panel label).length = 6)
    ∧ (∀ (fit : List Controls.DRow → Bool → Except String Controls.CStats)
        (rows : List Controls.DRow) (useNiat : Bool) (lag : ℕ) (label e : String),
      fit rows useNiat = Except.error e →
        (Controls.try_fit fit rows useNiat lag label).note = "skipped: " ++ e
        ∧ (Controls.try_fit fit rows useNiat lag label).coefEmp = none
        ∧ (Controls.try_fit fit rows useNiat lag label).pEmp = none
        ∧ (Controls.try_fit fit rows useNiat lag label).coefDebt = none
        ∧ (Controls.try_fit fit rows useNiat lag label).pDebt = none) := by
  constructor
  · intro fit panel label
    simp only [Controls.run_block, List.flatMap_cons, List.flatMap_nil,
      List.append_nil, List.length_append]
    split_ifs <;> rfl
  · intro fit rows useNiat lag label e h
    simp [Controls.try_fit, h]

/-- Witness for C4 at a concrete failing fit: the row is returned with the
machine-readable reason, and the batch of an empty panel still has 6 rows. -/
theorem c4_batch_policy_witness :
    ((fun (_ : List Controls.DRow) (_ : Bool) =>
        (Except.error "AbsorbingEffectError" : Except String Controls.CStats))
      [] false = Except.error "AbsorbingEffectError")
    ∧ (Controls.try_fit
        (fun _ _ => Except.error "AbsorbingEffectError") [] false 0 "Full sample").note
      = "skipped: " ++ "AbsorbingEffectError"
    ∧ (Controls.run_block
        (fun _ _ => Except.error "AbsorbingEffectError") [] "Full sample").length = 6 :=
  ⟨rfl,
   ((c4_batch_policy.2 (fun _ _ => Except.error "AbsorbingEffectError")
      [] false 0 "Full sample" "AbsorbingEffectError" rfl)).1,
   c4_batch_policy.1 (fun _ _ => Except.error "AbsorbingEffectError") [] "Full sample"⟩

/-- **C4 counterexample**: in model A, a panel with one estimable
(outcome, lag) combination and an estimator that raises `LinAlgError` on it
makes the whole batch abort with that exception — no row is recorded for the
failing combination and the remaining combinations are never reached. -/
theorem c4_batch_policy_cex :
    ModelA.batch (fun _ => Except.error "LinAlgError")
      [[⟨some 1, some 1, some 1, some 1, some 1⟩,
        ⟨some 2, some 2, some 2, some 2, some 2⟩]] "Full Period"
      = Except.error "LinAlgError" := by
  simp [ModelA.batch, ModelA.run_combos, ModelA.fit_one, ModelA.dataOf,
    ModelA.drop_singletons, ModelA.minEntityCount, Panel.shift, List.enum,
    List.range_succ, Except.map]

/-- **C8**.  A (subset, outcome, lag) combination is fitted only when its
NaN-free design frame has at least 2 distinct entities, at least 2 distinct
time points and more than 10 rows (`valid_panel`); a combination failing the
check contributes a row with note `"skipped: insufficient panel"` and `NaN`
statistics, a combination passing it contributes the fitted rows, and the
run always emits its six rows, so a failing lag does not abort the batch. -/
theorem c8_insufficient_panel
    (fit : List Controls.DRow → Bool → Except String Controls.CStats)
    (panel : List (String × List Controls.PRow)) (label : String) (lag : ℕ)
    (hlag : lag ∈ ([0, 1, 2] : List ℕ)) :
    (Controls.valid_panel (Controls.designFor panel lag) = true
      ↔ (2 ≤ Controls.nEntities (Controls.designFor panel lag)
          ∧ 2 ≤ Controls.nTimes (Controls.designFor panel lag)
          ∧ 10 < (Controls.designFor panel lag).length))
    ∧ (Controls.valid_panel (Controls.designFor panel lag) = false →
        Controls.skip_row (Controls.designFor panel lag) false lag label
            ∈ Controls.run_block fit panel label
        ∧ Controls.skip_row (Controls.designFor panel lag) true lag label
            ∈ Controls.run_block fit panel label
        ∧ (Controls.skip_row (Controls.designFor panel lag) false lag label).note
            = "skipped: insufficient panel"
        ∧ (Controls.skip_row (Controls.designFor panel lag) false lag label).coefEmp
            = none
        ∧ (Controls.skip_row (Controls.designFor panel lag) false lag label).pEmp
            = none
        ∧ (Controls.skip_row (Controls.designFor panel lag) false lag label).coefDebt
            = none
        ∧ (Controls.skip_row (Controls.designFor panel lag) false lag label).pDebt
            = none)
    ∧ (Controls.valid_panel (Controls.designFor panel lag) = true →
        Controls.try_fit fit (Controls.designFor panel lag) false lag label
            ∈ Controls.run_block fit panel label
        ∧ Controls.try_fit fit (Controls.designFor panel lag) true lag label
            ∈ Controls.run_block fit panel label)
    ∧ (Controls.run_block fit panel label).length = 6 := by
  refine ⟨?_, ?_, ?_, ?_⟩
  · simp only [Controls.valid_panel, Bool.and_eq_true, decide_eq_true_eq]
    tauto
  · intro hv
    refine ⟨?_, ?_, rfl, rfl, rfl, rfl, rfl⟩
    · rw [Controls.run_block]
      apply List.mem_flatMap.mpr
      exact ⟨lag, hlag, by simp [hv]⟩
    · rw [Controls.run_block]
      apply List.mem_flatMap.mpr
      exact ⟨lag, hlag, by simp [hv]⟩
  · intro hv
    constructor
    · rw [Controls.run_block]
      apply List.mem_flatMap.mpr
      exact ⟨lag, hlag, by simp [hv]⟩
    · rw [Controls.run_block]
      apply List.mem_flatMap.mpr
      exact ⟨lag, hlag, by simp [hv]⟩
  · simp only [Controls.run_block, List.flatMap_cons, List.flatMap_nil,
      List.append_nil, List.length_append]
    split_ifs <;> rfl

/-- Witness for C8 on the empty panel: all gates fail, the skipped rows are
recorded with the machine-readable note, and the run still has 6 rows. -/
theorem c8_insufficient_panel_witness :
    (0 : ℕ) ∈ ([0, 1, 2] : List ℕ)
    ∧ Controls.valid_panel (Controls.designFor [] 0) = false
    ∧ Controls.skip_row (Controls.designFor [] 0) false 0 "Full sample"
        ∈ Controls.run_block (fun _ _ => Except.error "E") [] "Full sample"
    ∧ (Controls.skip_row (Controls.designFor [] 0) false 0 "Full sample").note
        = "skipped: insufficient panel"
    ∧ (Controls.run_block (fun _ _ => Except.error "E") [] "Full sample").length
        = 6 :=
  ⟨by decide, by decide,
   ((c8_insufficient_panel (fun _ _ => Except.error "E") [] "Full sample" 0
      (by decide)).2.1 (by decide)).1,
   ((c8_insufficient_panel (fun _ _ => Except.error "E") [] "Full sample" 0
      (by decide)).2.1 (by decide)).2.2.1,
   (c8_insufficient_panel (fun _ _ => Except.error "E") [] "Full sample" 0
      (by decide)).2.2.2⟩

/-- **C1**.  Each (outcome, lag) cell of the Hausman block appears in
`run_block`'s output; when the design matrix has zero usable rows or zero
regressor columns the cell is the `"NA"` row with no statistic; otherwise
the cell reports the statistic `dᵀ V⁻¹ d` (rounded to 4 places for display)
with `d = β_FE − β_RE` and `V = Cov_FE − Cov_RE` restricted to the shared
regressor columns, degrees of freedom equal to the number of shared
regressors, the upper-tail chi-square p-value `1 − cdf(stat, df)`, and the
decision `"FE"` exactly when that p-value is below 0.05, else `"RE"`. -/
theorem c1_hausman_comparator (inv : List (List ℚ) → List (List ℚ))
    (chi2cdf : ℚ → ℕ → ℚ) (pfmt : ℚ → ℚ)
    (fitFE fitRE : Hausman.Design → Hausman.FitResult Hausman.XCol)
    (panel : List (List Hausman.PanelRow)) (label outName : String)
    (useNiat : Bool) (lag : ℕ) (hlag : lag < 4)
    (houtc : (outName, useNiat)
      ∈ ([("ROA", false), ("NIAT", true)] : List (String × Bool))) :
    (Hausman.run_cell inv chi2cdf pfmt fitFE fitRE panel label outName useNiat lag
        ∈ Hausman.run_block inv chi2cdf pfmt fitFE fitRE panel label)
    ∧ ((Hausman.build_design panel useNiat lag).rows.length = 0
          ∨ (Hausman.build_design panel useNiat lag).cols.length = 0 →
        Hausman.run_cell inv chi2cdf pfmt fitFE fitRE panel label outName useNiat lag
          = ⟨label, outName, lag, none, 0, none, "NA"⟩)
    ∧ (¬ ((Hausman.build_design panel useNiat lag).rows.length = 0
          ∨ (Hausman.build_design panel useNiat lag).cols.length = 0) →
        Hausman.run_cell inv chi2cdf pfmt fitFE fitRE panel label outName useNiat lag
          = ⟨label, outName, lag,
              some (Hausman.round4 (dot
                (Hausman.subVec (fitFE (Hausman.build_design panel useNiat lag)).params
                  (fitRE (Hausman.build_design panel useNiat lag)).params
                  (Hausman.build_design panel useNiat lag).cols)
                (matVec (inv (Hausman.subMat
                    (fitFE (Hausman.build_design panel useNiat lag)).cov
                    (fitRE (Hausman.build_design panel useNiat lag)).cov
                    (Hausman.build_design panel useNiat lag).cols))
                  (Hausman.subVec (fitFE (Hausman.build_design panel useNiat lag)).params
                    (fitRE (Hausman.build_design panel useNiat lag)).params
                    (Hausman.build_design panel useNiat lag).cols)))),
              (Hausman.build_design panel useNiat lag).cols.length,
              some (pfmt (1 - chi2cdf (dot
                (Hausman.subVec (fitFE (Hausman.build_design panel useNiat lag)).params
                  (fitRE (Hausman.build_design panel useNiat lag)).params
                  (Hausman.build_design panel useNiat lag).cols)
                (matVec (inv (Hausman.subMat
                    (fitFE (Hausman.build_design panel useNiat lag)).cov
                    (fitRE (Hausman.build_design panel useNiat lag)).cov
                    (Hausman.build_design panel useNiat lag).cols))
                  (Hausman.subVec (fitFE (Hausman.build_design panel useNiat lag)).params
                    (fitRE (Hausman.build_design panel useNiat lag)).params
                    (Hausman.build_design panel useNiat lag).cols)))
                (Hausman.build_design panel useNiat lag).cols.length)),
              if 1 - chi2cdf (dot
                (Hausman.subVec (fitFE (Hausman.build_design panel useNiat lag)).params
                  (fitRE (Hausman.build_design panel useNiat lag)).params
                  (Hausman.build_design panel useNiat lag).cols)
                (matVec (inv (Hausman.subMat
                    (fitFE (Hausman.build_design panel useNiat lag)).cov
                    (fitRE (Hausman.build_design panel useNiat lag)).cov
                    (Hausman.build_design panel useNiat lag).cols))
                  (Hausman.subVec (fitFE (Hausman.build_design panel useNiat lag)).params
                    (fitRE (Hausman.build_design panel useNiat lag)).params
                    (Hausman.build_design panel useNiat lag).cols)))
                (Hausman.build_design panel useNiat lag).cols.length < (0.05 : ℚ)
              then "FE" else "RE"⟩) := by
  refine ⟨?_, ?_, ?_⟩
  · rw [Hausman.run_block]
    apply List.mem_flatMap.mpr
    refine ⟨(outName, useNiat), houtc, ?_⟩
    exact List.mem_map.mpr ⟨lag, List.mem_range.mpr hlag, rfl⟩
  · intro h
    simp only [Hausman.run_cell]
    rw [if_pos h]
  · intro h
    simp only [Hausman.run_cell, Hausman.hausman_stat]
    rw [if_neg h]

/-- Witness for C1: for an empty panel and lag 0 the design matrix has zero
rows, and the cell in `run_block`'s output is the `"NA"` row. -/
theorem c1_hausman_comparator_witness :
    (0 : ℕ) < 4
    ∧ (("ROA", false) ∈ ([("ROA", false), ("NIAT", true)] : List (String × Bool)))
    ∧ ((Hausman.build_design [] false 0).rows.length = 0
        ∨ (Hausman.build_design [] false 0).cols.length = 0)
    ∧ Hausman.run_cell (fun m => m) (fun _ _ => 1) id
        (fun _ => ⟨fun _ => 0, fun _ _ => 0⟩) (fun _ => ⟨fun _ => 0, fun _ _ => 0⟩)
        [] "full" "ROA" false 0
      = ⟨"full", "ROA", 0, none, 0, none, "NA"⟩
    ∧ Hausman.run_cell (fun m => m) (fun _ _ => 1) id
        (fun _ => ⟨fun _ => 0, fun _ _ => 0⟩) (fun _ => ⟨fun _ => 0, fun _ _ => 0⟩)
        [] "full" "ROA" false 0
      ∈ Hausman.run_block (fun m => m) (fun _ _ => 1) id
        (fun _ => ⟨fun _ => 0, fun _ _ => 0⟩) (fun _ => ⟨fun _ => 0, fun _ _ => 0⟩)
        [] "full" :=
  ⟨by decide, by decide, by decide,
   (c1_hausman_comparator (fun m => m) (fun _ _ => 1) id
      (fun _ => ⟨fun _ => 0, fun _ _ => 0⟩) (fun _ => ⟨fun _ => 0, fun _ _ => 0⟩)
      [] "full" "ROA" false 0 (by decide) (by decide)).2.1 (by decide),
   (c1_hausman_comparator (fun m => m) (fun _ _ => 1) id
      (fun _ => ⟨fun _ => 0, fun _ _ => 0⟩) (fun _ => ⟨fun _ => 0, fun _ _ => 0⟩)
      [] "full" "ROA" false 0 (by decide) (by decide)).1⟩

/-- **C9**.  The Pesaran CD block: when at least 3 time rows and 2 entity
columns survive the all-missing drops, the statistic is
`sqrt(T) * rbar * sqrt(N(N−1)/2)` where `rbar` is the `nanmean` of the
upper-triangle pairwise Pearson correlations of the entity columns after
de-meaning by entity then by time, and the p-value is the two-sided normal
tail `2(1 − Φ(|stat|))`; with fewer remaining time points or entities both
are reported as not computed. -/
theorem c9_pesaran_cd (sqrtA normCdf : ℚ → ℚ) (series : List Diag.RRow) :
    (3 ≤ Diag.shapeT (Diag.unstack series)
        ∧ 2 ≤ Diag.shapeN (Diag.unstack series) →
      Diag.pesaranCD sqrtA normCdf series
        = ((Diag.rbarOf sqrtA (Diag.demean (Diag.keptCols (Diag.unstack series)))).map
            (fun rb => sqrtA (Diag.shapeT (Diag.unstack series) : ℚ) * rb
              * sqrtA (((Diag.shapeN (Diag.unstack series) : ℚ)
                  * ((Diag.shapeN (Diag.unstack series) : ℚ) - 1)) / 2)),
           (Diag.rbarOf sqrtA (Diag.demean (Diag.keptCols (Diag.unstack series)))).map
            (fun rb => 2 * (1 - normCdf
              |sqrtA (Diag.shapeT (Diag.unstack series) : ℚ) * rb
                * sqrtA (((Diag.shapeN (Diag.unstack series) : ℚ)
                    * ((Diag.shapeN (Diag.unstack series) : ℚ) - 1)) / 2)|))))
    ∧ (¬ (3 ≤ Diag.shapeT (Diag.unstack series)
        ∧ 2 ≤ Diag.shapeN (Diag.unstack series)) →
      Diag.pesaranCD sqrtA normCdf series = (none, none)) := by
  constructor
  · intro h
    simp only [Diag.pesaranCD]
    rw [if_pos h, Option.map_map]
    rfl
  · intro h
    simp only [Diag.pesaranCD]
    rw [if_neg h]

/-- Witness for C9 on a concrete 3-period, 2-entity residual series whose
pivot passes the gate. -/
theorem c9_pesaran_cd_witness :
    (3 ≤ Diag.shapeT (Diag.unstack
        [⟨0, 2018, 1⟩, ⟨0, 2019, 2⟩, ⟨0, 2020, 4⟩,
         ⟨1, 2018, 2⟩, ⟨1, 2019, 3⟩, ⟨1, 2020, 6⟩])
      ∧ 2 ≤ Diag.shapeN (Diag.unstack
        [⟨0, 2018, 1⟩, ⟨0, 2019, 2⟩, ⟨0, 2020, 4⟩,
         ⟨1, 2018, 2⟩, ⟨1, 2019, 3⟩, ⟨1, 2020, 6⟩]))
    ∧ Diag.pesaranCD id id
        [⟨0, 2018, 1⟩, ⟨0, 2019, 2⟩, ⟨0, 2020, 4⟩,
         ⟨1, 2018, 2⟩, ⟨1, 2019, 3⟩, ⟨1, 2020, 6⟩]
      = ((Diag.rbarOf id (Diag.demean (Diag.keptCols (Diag.unstack
            [⟨0, 2018, 1⟩, ⟨0, 2019, 2⟩, ⟨0, 2020, 4⟩,
             ⟨1, 2018, 2⟩, ⟨1, 2019, 3⟩, ⟨1, 2020, 6⟩])))).map
          (fun rb => id (Diag.shapeT (Diag.unstack
              [⟨0, 2018, 1⟩, ⟨0, 2019, 2⟩, ⟨0, 2020, 4⟩,
               ⟨1, 2018, 2⟩, ⟨1, 2019, 3⟩, ⟨1, 2020, 6⟩]) : ℚ) * rb
            * id (((Diag.shapeN (Diag.unstack
                [⟨0, 2018, 1⟩, ⟨0, 2019, 2⟩, ⟨0, 2020, 4⟩,
                 ⟨1, 2018, 2⟩, ⟨1, 2019, 3⟩, ⟨1, 2020, 6⟩]) : ℚ)
                * ((Diag.shapeN (Diag.unstack
                [⟨0, 2018, 1⟩, ⟨0, 2019, 2⟩, ⟨0, 2020, 4⟩,
                 ⟨1, 2018, 2⟩, ⟨1, 2019, 3⟩, ⟨1, 2020, 6⟩]) : ℚ) - 1)) / 2)),
         (Diag.rbarOf id (Diag.demean (Diag.keptCols (Diag.unstack
            [⟨0, 2018, 1⟩, ⟨0, 2019, 2⟩, ⟨0, 2020, 4⟩,
             ⟨1, 2018, 2⟩, ⟨1, 2019, 3⟩, ⟨1, 2020, 6⟩])))).map
          (fun rb => 2 * (1 - id
            |id (Diag.shapeT (Diag.unstack
                [⟨0, 2018, 1⟩, ⟨0, 2019, 2⟩, ⟨0, 2020, 4⟩,
                 ⟨1, 2018, 2⟩, ⟨1, 2019, 3⟩, ⟨1, 2020, 6⟩]) : ℚ) * rb
              * id (((Diag.shapeN (Diag.unstack
                  [⟨0, 2018, 1⟩, ⟨0, 2019, 2⟩, ⟨0, 2020, 4⟩,
                   ⟨1, 2018, 2⟩, ⟨1, 2019, 3⟩, ⟨1, 2020, 6⟩]) : ℚ)
                  * ((Diag.shapeN (Diag.unstack
                  [⟨0, 2018, 1⟩, ⟨0, 2019, 2⟩, ⟨0, 2020, 4⟩,
                   ⟨1, 2018, 2⟩, ⟨1, 2019, 3⟩, ⟨1, 2020, 6⟩]) : ℚ) - 1)) / 2)|))) :=
  ⟨by decide,
   (c9_pesaran_cd id id
      [⟨0, 2018, 1⟩, ⟨0, 2019, 2⟩, ⟨0, 2020, 4⟩,
       ⟨1, 2018, 2⟩, ⟨1, 2019, 3⟩, ⟨1, 2020, 6⟩]).1 (by decide)⟩

/-- Witness for C3 at a concrete lag and group. -/
theorem c3_lag_builder_witness :
    (1 : ℕ) ≤ 2 ∧ (2 : ℕ) < 4
    ∧ (Panel.shift 1 [some (10 : ℚ), some 20, some 30, some 40])[2]?
        = [some (10 : ℚ), some 20, some 30, some 40][1]? :=
  ⟨by decide, by decide,
   (c3_lag_builder.1 1 [some 10, some 20, some 30, some 40]).2.2.1 2
     (by decide) (by decide)⟩

end ThesisModels
